import Mathlib

/-!
Verification development for the `bench` latency-benchmarking engine.

The repository contains two revisions of the engine, both embedded here:

* namespace `Bench` — the current multi-connection engine (`bench.go`,
  `summary.go`, single corrected/uncorrected histogram pair, fatal error
  policy: a failing request aborts the run);
* namespace `TrackedBench` — the four-histogram revision (success/error
  histogram pairs, tracked error policy: a failing request is recorded and
  counted while the loop continues).

The latency recorder itself (`codahale/hdrhistogram`) is a dependency whose
source is not part of the repository, so it is modelled from the spec
(section 4.1 "Latency Recorder") as the multiset of recorded samples: raw
recording range-checks against the configured bounds `[1, 300000000000]`,
corrected recording synthesizes back-filled samples, merge concatenates the
underlying samples, and `TotalCount` is the number of recorded samples.

Wall-clock time is modelled by an explicit clock (nanoseconds, `Int`)
threaded through the measurement loops: each request advances the clock by
its latency, and the rate-limited busy-spin advances it to the expected
interval.  A `Requester` is modelled by its observable behaviour: the
outcome of `Setup`/`Teardown` and the scripted sequence of request outcomes
(latency in nanoseconds plus an optional error) that the system under test
would produce.  Go's `float64` arithmetic (throughput, seconds) is modelled
over `ℚ`.
-/

namespace Hdr

/-- Upper bound of the recorder's trackable range, `maxRecordableLatencyNS`
in `bench.go`. -/
def maxRecordableLatencyNS : Int := 300000000000

/-- Modelled from the spec: the Latency Recorder (`hdrhistogram.Histogram`,
not part of the repository's source) is represented by the multiset of
samples it has recorded, kept as a list. -/
structure Histogram where
  samples : List Int
deriving Repr, DecidableEq

/-- `hdrhistogram.New(1, maxRecordableLatencyNS, sigFigs)`: a fresh, empty
recorder. -/
def Histogram.New : Histogram := ⟨[]⟩

/-- Modelled from the spec: `recordRaw(value)` stores one sample and fails
with a RangeError if the value falls outside the configured bounds. -/
def Histogram.RecordValue (h : Histogram) (v : Int) : Except String Histogram :=
  if 1 ≤ v ∧ v ≤ maxRecordableLatencyNS then .ok ⟨v :: h.samples⟩
  else .error "RangeError"

/-- Record a list of values in order, stopping at the first RangeError. -/
def Histogram.RecordAll (h : Histogram) : List Int → Except String Histogram
  | [] => .ok h
  | v :: rest =>
    match h.RecordValue v with
    | .error e => .error e
    | .ok h' => h'.RecordAll rest

/-- Modelled from the spec: the additional samples synthesized by corrected
recording, `value − k·expectedInterval` for `k = 1, 2, …` while the result
stays positive. -/
def synthesizedSamples (v i : Int) : List Int :=
  if _hc : 0 < i ∧ 0 < v - i then (v - i) :: synthesizedSamples (v - i) i else []
termination_by v.toNat
decreasing_by omega

/-- Modelled from the spec: `recordCorrected(value, expectedInterval)` —
with `value ≤ expectedInterval` it behaves as `recordRaw`; otherwise it
records the true value and the synthesized back-filled samples. -/
def Histogram.RecordCorrectedValue (h : Histogram) (v i : Int) :
    Except String Histogram :=
  match h.RecordValue v with
  | .error e => .error e
  | .ok h1 => if v ≤ i then .ok h1 else h1.RecordAll (synthesizedSamples v i)

/-- `Merge`: modelled from the spec as bucket-wise union of the recorded
samples. -/
def Histogram.Merge (h o : Histogram) : Histogram := ⟨h.samples ++ o.samples⟩

/-- `TotalCount`: the number of recorded samples. -/
def Histogram.TotalCount (h : Histogram) : Nat := h.samples.length

/-- Modelled from the spec: `quantileValue(p)` returns the value at
percentile `p` (0–100) of the recorded samples: the sample at the ceiling
rank `⌈p/100 · n⌉` of the sorted sample list (0 on an empty recorder). -/
def Histogram.ValueAtQuantile (h : Histogram) (p : ℚ) : Int :=
  let sorted := h.samples.mergeSort (fun a b => decide (a ≤ b))
  let rank := (⌈p * sorted.length / 100⌉).toNat
  sorted.getD (rank - 1) 0

end Hdr

/-- Modelled observable behaviour of a `Requester` (`bench.go` interface):
the outcome of `Setup()`, the scripted sequence of request outcomes — each
request's latency in nanoseconds together with `none` for success or
`some e` for a request error — and the outcome of `Teardown()`. -/
structure Requester where
  setupErr : Option String
  requests : List (Int × Option String)
  teardownErr : Option String
deriving Repr, DecidableEq

/-- Decidable equality for `Except`, so concrete runs can be checked by
evaluation. -/
instance {ε α : Type} [DecidableEq ε] [DecidableEq α] :
    DecidableEq (Except ε α) := fun a b =>
  match a, b with
  | .ok x, .ok y =>
    if h : x = y then isTrue (by rw [h])
    else isFalse (fun hc => h (by cases hc; rfl))
  | .error x, .error y =>
    if h : x = y then isTrue (by rw [h])
    else isFalse (fun hc => h (by cases hc; rfl))
  | .ok _, .error _ => isFalse (fun hc => by cases hc)
  | .error _, .ok _ => isFalse (fun hc => by cases hc)

namespace Bench

open Hdr

/-- `Summary` (`summary.go`, single-histogram revision).  `TimeElapsed` is
in nanoseconds; `Throughput` is over `ℚ` in place of Go's `float64`. -/
structure Summary where
  Connections : Nat
  RequestRate : Nat
  TotalRequests : Nat
  TimeElapsed : Int
  Histogram : Hdr.Histogram
  UncorrectedHistogram : Hdr.Histogram
  Throughput : ℚ
deriving Repr, DecidableEq

/-- `Summary.merge` (`summary.go`): take the larger elapsed time, merge the
histograms, and add the totals, throughputs and rates. -/
def Summary.merge (s o : Summary) : Summary :=
  { s with
    TimeElapsed := if o.TimeElapsed > s.TimeElapsed then o.TimeElapsed else s.TimeElapsed
    Histogram := s.Histogram.Merge o.Histogram
    UncorrectedHistogram := s.UncorrectedHistogram.Merge o.UncorrectedHistogram
    TotalRequests := s.TotalRequests + o.TotalRequests
    Throughput := s.Throughput + o.Throughput
    RequestRate := s.RequestRate + o.RequestRate }

/-- `connectionBenchmark` (`bench.go`). -/
structure ConnectionBenchmark where
  requester : Requester
  requestRate : Nat
  duration : Int
  expectedInterval : Int
  histogram : Hdr.Histogram
  uncorrectedHistogram : Hdr.Histogram
  totalRequests : Nat
  elapsed : Int
deriving Repr, DecidableEq

/-- `newConnectionBenchmark` (`bench.go`): the expected inter-request
interval is `1000000000 / requestRate` nanoseconds when the rate is
positive, otherwise rate limiting is disabled. -/
def newConnectionBenchmark (requester : Requester) (requestRate : Nat)
    (duration : Int) : ConnectionBenchmark :=
  let interval : Int := if requestRate > 0 then ((1000000000 / requestRate : Nat) : Int) else 0
  { requester := requester
    requestRate := requestRate
    duration := duration
    expectedInterval := interval
    histogram := Hdr.Histogram.New
    uncorrectedHistogram := Hdr.Histogram.New
    totalRequests := 0
    elapsed := 0 }

/-- `connectionBenchmark.setup` (`bench.go`): reset the recorders and the
request counter, then run the requester's `Setup`, whose outcome is
returned. -/
def ConnectionBenchmark.setup (c : ConnectionBenchmark) :
    ConnectionBenchmark × Option String :=
  ({ c with histogram := Hdr.Histogram.New
            uncorrectedHistogram := Hdr.Histogram.New
            totalRequests := 0 },
   c.requester.setupErr)

/-- `connectionBenchmark.teardown` (`bench.go`). -/
def ConnectionBenchmark.teardown (c : ConnectionBenchmark) : Option String :=
  c.requester.teardownErr

/-- The measurement loop of `runRateLimited` (`bench.go`): at each iteration
boundary the deadline is checked; then one request is issued (a request
error aborts the loop — the fatal policy), its latency is recorded corrected
into the main histogram and raw into the uncorrected one, and the loop
busy-spins until the expected interval has passed since the request began,
so the clock advances by `max latency interval` per iteration. -/
def runRateLimitedLoop (interval duration now : Int)
    (reqs : List (Int × Option String)) (c : ConnectionBenchmark) :
    ConnectionBenchmark × Except String Int :=
  if duration ≤ now then (c, .ok now)
  else
    match reqs with
    | [] => (c, .ok now)
    | (lat, outcome) :: rest =>
      match outcome with
      | some e => (c, .error e)
      | none =>
        match c.histogram.RecordCorrectedValue lat interval with
        | .error e => (c, .error e)
        | .ok hist =>
          match c.uncorrectedHistogram.RecordValue lat with
          | .error e => ({ c with histogram := hist }, .error e)
          | .ok uhist =>
            runRateLimitedLoop interval duration (now + max lat interval) rest
              { c with histogram := hist
                       uncorrectedHistogram := uhist
                       totalRequests := c.totalRequests + 1 }

/-- `connectionBenchmark.runRateLimited` (`bench.go`). -/
def ConnectionBenchmark.runRateLimited (c : ConnectionBenchmark) :
    ConnectionBenchmark × Except String Int :=
  runRateLimitedLoop c.expectedInterval c.duration 0 c.requester.requests c

/-- The measurement loop of `runFullThrottle` (`bench.go`): the deadline is
checked only at iteration boundaries; each request is issued immediately
after the previous one completes (the clock advances by exactly the
latency), a request error aborts the loop, and only the raw value is
recorded, into the main histogram. -/
def runFullThrottleLoop (duration now : Int)
    (reqs : List (Int × Option String)) (c : ConnectionBenchmark) :
    ConnectionBenchmark × Except String Int :=
  if duration ≤ now then (c, .ok now)
  else
    match reqs with
    | [] => (c, .ok now)
    | (lat, outcome) :: rest =>
      match outcome with
      | some e => (c, .error e)
      | none =>
        match c.histogram.RecordValue lat with
        | .error e => (c, .error e)
        | .ok hist =>
          runFullThrottleLoop duration (now + lat) rest
            { c with histogram := hist, totalRequests := c.totalRequests + 1 }

/-- `connectionBenchmark.runFullThrottle` (`bench.go`). -/
def ConnectionBenchmark.runFullThrottle (c : ConnectionBenchmark) :
    ConnectionBenchmark × Except String Int :=
  runFullThrottleLoop c.duration 0 c.requester.requests c

/-- `connectionBenchmark.summarize` (`bench.go`): snapshot the counters and
recorders into a partial `Summary`; throughput is
`totalRequests / elapsed.Seconds()`. -/
def ConnectionBenchmark.summarize (c : ConnectionBenchmark) : Summary :=
  { Connections := 0
    RequestRate := c.requestRate
    TotalRequests := c.totalRequests
    TimeElapsed := c.elapsed
    Histogram := c.histogram
    UncorrectedHistogram := c.uncorrectedHistogram
    Throughput := (c.totalRequests : ℚ) / ((c.elapsed : ℚ) / 1000000000) }

/-- `result` (`bench.go`): the outcome of one `connectionBenchmark` run. -/
structure RunResult where
  err : Option String
  summary : Summary
deriving Repr, DecidableEq

/-- `connectionBenchmark.run` (`bench.go`): dispatch on the configured rate
(zero disables rate limiting), store the measured elapsed time (zero on
error, as the Go loops return `0, err`), and summarize. -/
def ConnectionBenchmark.run (c : ConnectionBenchmark) : RunResult :=
  let (c', r) := if c.requestRate = 0 then c.runFullThrottle else c.runRateLimited
  match r with
  | .ok e => { err := none, summary := ({ c' with elapsed := e }).summarize }
  | .error msg => { err := some msg, summary := ({ c' with elapsed := 0 }).summarize }

/-- `Benchmark` (`bench.go`). -/
structure Benchmark where
  connections : Nat
  benchmarks : List ConnectionBenchmark
deriving Repr, DecidableEq

/-- `NewBenchmark` (`bench.go`): zero connections defaults to one; the i-th
connection benchmark is bound to `factory.GetRequester(i)` with the
per-connection rate `requestRate / connections` (integer division). -/
def NewBenchmark (factory : Nat → Requester) (requestRate connections : Nat)
    (duration : Int) : Benchmark :=
  let connections := if connections = 0 then 1 else connections
  { connections := connections
    benchmarks := (List.range connections).map fun i =>
      newConnectionBenchmark (factory i) (requestRate / connections) duration }

/-- One observable orchestrator step, used to record which operations
`Run` actually attempts, and in which order. -/
inductive Action where
  | setup (i : Nat)
  | runConn (i : Nat)
  | teardown (i : Nat)
deriving Repr, DecidableEq

/-- The sequential setup phase of `Run` (`bench.go`): set up each
connection benchmark in order, stopping at the first failure. Returns the
benchmarks set up so far, the attempted actions, and the first error. -/
def setupAll : List ConnectionBenchmark → Nat →
    List ConnectionBenchmark × List Action × Option String
  | [], _ => ([], [], none)
  | c :: rest, i =>
    let (c', e) := c.setup
    match e with
    | some err => ([c'], [.setup i], some err)
    | none =>
      let (cs, acts, r) := setupAll rest (i + 1)
      (c' :: cs, .setup i :: acts, r)

/-- The sequential teardown phase of `Run` (`bench.go`): tear down each
connection benchmark in order, stopping at the first failure. -/
def teardownAll : List ConnectionBenchmark → Nat → List Action × Option String
  | [], _ => ([], none)
  | c :: rest, i =>
    match c.teardown with
    | some e => ([.teardown i], some e)
    | none =>
      let (acts, r) := teardownAll rest (i + 1)
      (.teardown i :: acts, r)

/-- The tail of the result-merging phase of `Run` (`bench.go`): fold the
remaining results into the accumulated summary, aborting on the first
result that carries an error. -/
def mergeRest (s : Summary) : List RunResult → Except String Summary
  | [] => .ok s
  | r :: rest =>
    match r.err with
    | some e => .error e
    | none => mergeRest (s.merge r.summary) rest

/-- The result-merging phase of `Run` (`bench.go`): take the first result
(a run always has at least one connection; an empty result list would
deadlock the Go orchestrator), abort if it carries an error, and fold the
rest in. -/
def mergeResults : List RunResult → Except String Summary
  | [] => .error "deadlock: no results"
  | r :: rest =>
    match r.err with
    | some e => .error e
    | none => mergeRest r.summary rest

/-- `Benchmark.Run` (`bench.go`): set up every runner sequentially
(aborting on the first failure), run all connection benchmarks (started
together by the start gate; their interleaving does not affect any
per-connection state, so they are modelled in order), tear each down
sequentially (aborting on the first failure), then merge the collected
results, setting the connection count.  Alongside the Go return value the
model returns the list of attempted operations. -/
def Benchmark.Run (b : Benchmark) : Except String Summary × List Action :=
  let (bs, setupActs, setupErr) := setupAll b.benchmarks 0
  match setupErr with
  | some e => (.error e, setupActs)
  | none =>
    let results := bs.map ConnectionBenchmark.run
    let runActs := (List.range bs.length).map Action.runConn
    let (tdActs, tdErr) := teardownAll bs 0
    match tdErr with
    | some e => (.error e, setupActs ++ runActs ++ tdActs)
    | none =>
      match mergeResults results with
      | .error e => (.error e, setupActs ++ runActs ++ tdActs)
      | .ok s => (.ok { s with Connections := b.connections }, setupActs ++ runActs ++ tdActs)

/-- One row of the distribution file written by
`GenerateLatencyDistribution` (`summary.go`): the quantile value scaled to
milliseconds, the percentile as a fraction, the unused total count (always
written as 0), and `1/(1-percentile)`. -/
structure DistRow where
  value : ℚ
  percentile : ℚ
  totalCount : Nat
  oneOverOneMinusPercentile : ℚ
deriving Repr, DecidableEq

/-- The row loop of `GenerateLatencyDistribution` (`summary.go`): one row
per requested percentile. -/
def distRows (h : Hdr.Histogram) (percentiles : List ℚ) : List DistRow :=
  percentiles.map fun p =>
    { value := ((h.ValueAtQuantile p : ℚ) / 1000000)
      percentile := p / 100
      totalCount := 0
      oneOverOneMinusPercentile := 1 / (1 - p / 100) }

/-- Modelled from the spec: the default logarithmic percentile scale
(`Logarithmic`, declared outside the provided source files): "50, 75, 90,
99, 99.9, 99.99, …". -/
def Logarithmic : List ℚ := [50, 75, 90, 99, 99.9, 99.99]

/-- `Summary.GenerateLatencyDistribution` (`summary.go`), modelled as the
list of files written, each with its rows: `nil` percentiles default to the
logarithmic scale; the corrected distribution goes to `file`, and if a
request rate was configured a second, uncorrected distribution goes to
`"uncorrected_" ++ file`.  File-system errors are outside the model. -/
def Summary.GenerateLatencyDistribution (s : Summary)
    (percentiles : Option (List ℚ)) (file : String) :
    List (String × List DistRow) :=
  let percentiles := percentiles.getD Logarithmic
  (file, distRows s.Histogram percentiles) ::
    (if s.RequestRate > 0 then
      [("uncorrected_" ++ file, distRows s.UncorrectedHistogram percentiles)]
    else [])

end Bench

namespace TrackedBench

open Hdr

/-- `Summary` (four-histogram revision of `summary.go`). -/
structure Summary where
  Connections : Nat
  RequestRate : Nat
  SuccessTotal : Nat
  ErrorTotal : Nat
  TimeElapsed : Int
  SuccessHistogram : Hdr.Histogram
  UncorrectedSuccessHistogram : Hdr.Histogram
  ErrorHistogram : Hdr.Histogram
  UncorrectedErrorHistogram : Hdr.Histogram
  Throughput : ℚ
deriving Repr, DecidableEq

/-- `Summary.merge` (four-histogram revision of `summary.go`): take the
larger elapsed time, merge the four histograms, and add the totals,
throughputs and rates. -/
def Summary.merge (s o : Summary) : Summary :=
  { s with
    TimeElapsed := if o.TimeElapsed > s.TimeElapsed then o.TimeElapsed else s.TimeElapsed
    SuccessHistogram := s.SuccessHistogram.Merge o.SuccessHistogram
    UncorrectedSuccessHistogram := s.UncorrectedSuccessHistogram.Merge o.UncorrectedSuccessHistogram
    ErrorHistogram := s.ErrorHistogram.Merge o.ErrorHistogram
    UncorrectedErrorHistogram := s.UncorrectedErrorHistogram.Merge o.UncorrectedErrorHistogram
    SuccessTotal := s.SuccessTotal + o.SuccessTotal
    ErrorTotal := s.ErrorTotal + o.ErrorTotal
    Throughput := s.Throughput + o.Throughput
    RequestRate := s.RequestRate + o.RequestRate }

/-- `connectionBenchmark` (tracked revision of `bench.go`). -/
structure ConnectionBenchmark where
  requester : Requester
  requestRate : Nat
  duration : Int
  expectedInterval : Int
  successHistogram : Hdr.Histogram
  uncorrectedSuccessHistogram : Hdr.Histogram
  errorHistogram : Hdr.Histogram
  uncorrectedErrorHistogram : Hdr.Histogram
  successTotal : Nat
  errorTotal : Nat
  elapsed : Int
deriving Repr, DecidableEq

/-- `newConnectionBenchmark` (tracked revision of `bench.go`). -/
def newConnectionBenchmark (requester : Requester) (requestRate : Nat)
    (duration : Int) : ConnectionBenchmark :=
  let interval : Int := if requestRate > 0 then ((1000000000 / requestRate : Nat) : Int) else 0
  { requester := requester
    requestRate := requestRate
    duration := duration
    expectedInterval := interval
    successHistogram := Hdr.Histogram.New
    uncorrectedSuccessHistogram := Hdr.Histogram.New
    errorHistogram := Hdr.Histogram.New
    uncorrectedErrorHistogram := Hdr.Histogram.New
    successTotal := 0
    errorTotal := 0
    elapsed := 0 }

/-- `connectionBenchmark.setup` (tracked revision): reset the recorders and
both counters, then run the requester's `Setup`. -/
def ConnectionBenchmark.setup (c : ConnectionBenchmark) :
    ConnectionBenchmark × Option String :=
  ({ c with successHistogram := Hdr.Histogram.New
            uncorrectedSuccessHistogram := Hdr.Histogram.New
            errorHistogram := Hdr.Histogram.New
            uncorrectedErrorHistogram := Hdr.Histogram.New
            successTotal := 0
            errorTotal := 0 },
   c.requester.setupErr)

/-- `connectionBenchmark.teardown` (tracked revision). -/
def ConnectionBenchmark.teardown (c : ConnectionBenchmark) : Option String :=
  c.requester.teardownErr

/-- The measurement loop of `runRateLimited` (tracked revision): a failing
request is recorded — corrected — into the error histograms and counted,
a successful one into the success histograms; only a recording RangeError
aborts the loop.  The busy-spin advances the clock to the expected interval
when the latency was shorter. -/
def runRateLimitedLoop (interval duration now : Int)
    (reqs : List (Int × Option String)) (c : ConnectionBenchmark) :
    ConnectionBenchmark × Except String Int :=
  if duration ≤ now then (c, .ok now)
  else
    match reqs with
    | [] => (c, .ok now)
    | (lat, outcome) :: rest =>
      match outcome with
      | some _ =>
        match c.errorHistogram.RecordCorrectedValue lat interval with
        | .error e => (c, .error e)
        | .ok eh =>
          match c.uncorrectedErrorHistogram.RecordValue lat with
          | .error e => ({ c with errorHistogram := eh }, .error e)
          | .ok ueh =>
            runRateLimitedLoop interval duration (now + max lat interval) rest
              { c with errorHistogram := eh
                       uncorrectedErrorHistogram := ueh
                       errorTotal := c.errorTotal + 1 }
      | none =>
        match c.successHistogram.RecordCorrectedValue lat interval with
        | .error e => (c, .error e)
        | .ok sh =>
          match c.uncorrectedSuccessHistogram.RecordValue lat with
          | .error e => ({ c with successHistogram := sh }, .error e)
          | .ok ush =>
            runRateLimitedLoop interval duration (now + max lat interval) rest
              { c with successHistogram := sh
                       uncorrectedSuccessHistogram := ush
                       successTotal := c.successTotal + 1 }

/-- `connectionBenchmark.runRateLimited` (tracked revision). -/
def ConnectionBenchmark.runRateLimited (c : ConnectionBenchmark) :
    ConnectionBenchmark × Except String Int :=
  runRateLimitedLoop c.expectedInterval c.duration 0 c.requester.requests c

/-- The measurement loop of `runFullThrottle` (tracked revision): a failing
request is recorded raw into the error histogram and counted, a successful
one into the success histogram; no pacing and no corrected recording. -/
def runFullThrottleLoop (duration now : Int)
    (reqs : List (Int × Option String)) (c : ConnectionBenchmark) :
    ConnectionBenchmark × Except String Int :=
  if duration ≤ now then (c, .ok now)
  else
    match reqs with
    | [] => (c, .ok now)
    | (lat, outcome) :: rest =>
      match outcome with
      | some _ =>
        match c.errorHistogram.RecordValue lat with
        | .error e => (c, .error e)
        | .ok eh =>
          runFullThrottleLoop duration (now + lat) rest
            { c with errorHistogram := eh, errorTotal := c.errorTotal + 1 }
      | none =>
        match c.successHistogram.RecordValue lat with
        | .error e => (c, .error e)
        | .ok sh =>
          runFullThrottleLoop duration (now + lat) rest
            { c with successHistogram := sh, successTotal := c.successTotal + 1 }

/-- `connectionBenchmark.runFullThrottle` (tracked revision). -/
def ConnectionBenchmark.runFullThrottle (c : ConnectionBenchmark) :
    ConnectionBenchmark × Except String Int :=
  runFullThrottleLoop c.duration 0 c.requester.requests c

/-- `connectionBenchmark.summarize` (tracked revision): throughput is
`(successTotal + errorTotal) / elapsed.Seconds()`. -/
def ConnectionBenchmark.summarize (c : ConnectionBenchmark) : Summary :=
  { Connections := 0
    RequestRate := c.requestRate
    SuccessTotal := c.successTotal
    ErrorTotal := c.errorTotal
    TimeElapsed := c.elapsed
    SuccessHistogram := c.successHistogram
    UncorrectedSuccessHistogram := c.uncorrectedSuccessHistogram
    ErrorHistogram := c.errorHistogram
    UncorrectedErrorHistogram := c.uncorrectedErrorHistogram
    Throughput := ((c.successTotal + c.errorTotal : Nat) : ℚ) / ((c.elapsed : ℚ) / 1000000000) }

/-- `result` (tracked revision). -/
structure RunResult where
  err : Option String
  summary : Summary
deriving Repr, DecidableEq

/-- `connectionBenchmark.run` (tracked revision). -/
def ConnectionBenchmark.run (c : ConnectionBenchmark) : RunResult :=
  let (c', r) := if c.requestRate = 0 then c.runFullThrottle else c.runRateLimited
  match r with
  | .ok e => { err := none, summary := ({ c' with elapsed := e }).summarize }
  | .error msg => { err := some msg, summary := ({ c' with elapsed := 0 }).summarize }

/-- `Benchmark` (tracked revision). -/
structure Benchmark where
  connections : Nat
  benchmarks : List ConnectionBenchmark
deriving Repr, DecidableEq

/-- `NewBenchmark` (tracked revision). -/
def NewBenchmark (factory : Nat → Requester) (requestRate connections : Nat)
    (duration : Int) : Benchmark :=
  let connections := if connections = 0 then 1 else connections
  { connections := connections
    benchmarks := (List.range connections).map fun i =>
      newConnectionBenchmark (factory i) (requestRate / connections) duration }

/-- The sequential setup phase of `Run` (tracked revision). -/
def setupAll : List ConnectionBenchmark → List ConnectionBenchmark × Option String
  | [] => ([], none)
  | c :: rest =>
    let (c', e) := c.setup
    match e with
    | some err => ([c'], some err)
    | none =>
      let (cs, r) := setupAll rest
      (c' :: cs, r)

/-- The sequential teardown phase of `Run` (tracked revision). -/
def teardownAll : List ConnectionBenchmark → Option String
  | [] => none
  | c :: rest =>
    match c.teardown with
    | some e => some e
    | none => teardownAll rest

/-- The tail of the result-merging phase of `Run` (tracked revision). -/
def mergeRest (s : Summary) : List RunResult → Except String Summary
  | [] => .ok s
  | r :: rest =>
    match r.err with
    | some e => .error e
    | none => mergeRest (s.merge r.summary) rest

/-- The result-merging phase of `Run` (tracked revision). -/
def mergeResults : List RunResult → Except String Summary
  | [] => .error "deadlock: no results"
  | r :: rest =>
    match r.err with
    | some e => .error e
    | none => mergeRest r.summary rest

/-- `Benchmark.Run` (tracked revision of `bench.go`). -/
def Benchmark.Run (b : Benchmark) : Except String Summary :=
  let (bs, setupErr) := setupAll b.benchmarks
  match setupErr with
  | some e => .error e
  | none =>
    let results := bs.map ConnectionBenchmark.run
    match teardownAll bs with
    | some e => .error e
    | none =>
      match mergeResults results with
      | .error e => .error e
      | .ok s => .ok { s with Connections := b.connections }

/-- The number of requests the rate-limited loop issues before its deadline
check stops it (or its scripted outcomes are exhausted): one per loop
iteration, with the clock advancing by `max latency interval`. -/
def rateLimitedAttempts (interval duration now : Int) :
    List (Int × Option String) → Nat
  | [] => 0
  | (lat, _) :: rest =>
    if duration ≤ now then 0
    else 1 + rateLimitedAttempts interval duration (now + max lat interval) rest

/-- The number of requests the full-throttle loop issues before its
deadline check stops it (or its scripted outcomes are exhausted). -/
def fullThrottleAttempts (duration now : Int) :
    List (Int × Option String) → Nat
  | [] => 0
  | (lat, _) :: rest =>
    if duration ≤ now then 0
    else 1 + fullThrottleAttempts duration (now + lat) rest

/-- The number of requests a connection benchmark run issues, under the
loop policy its configured rate selects. -/
def ConnectionBenchmark.attempts (c : ConnectionBenchmark) : Nat :=
  if c.requestRate = 0 then fullThrottleAttempts c.duration 0 c.requester.requests
  else rateLimitedAttempts c.expectedInterval c.duration 0 c.requester.requests

end TrackedBench

namespace Bench

/-- The latencies of the requests the full-throttle loop issues before its
deadline check stops it (or its scripted outcomes are exhausted): the
deadline is checked only at iteration boundaries, so a request whose
latency crosses the deadline still runs to completion and is still
recorded. -/
def fullThrottleExecuted (duration now : Int) :
    List (Int × Option String) → List Int
  | [] => []
  | (lat, _) :: rest =>
    if duration ≤ now then []
    else lat :: fullThrottleExecuted duration (now + lat) rest

end Bench

/-- A scripted requester factory with two connections of different request
latencies (10ns and 20ns), used to exhibit concrete runs. -/
def twoSpeedFactory : Nat → Requester := fun i =>
  if i = 0 then ⟨none, [(10, none)], none⟩ else ⟨none, [(20, none)], none⟩

/-- A scripted requester whose single request succeeds in 5ns and whose
`Teardown` fails. -/
def teardownFailFactory : Nat → Requester := fun _ =>
  ⟨none, [(5, none)], some "boom"⟩

/-- A scripted requester whose single request succeeds in 5ns. -/
def quickFactory : Nat → Requester := fun _ => ⟨none, [(5, none)], none⟩

namespace Hdr

theorem synthesizedSamples_of_neg (v i : Int) (h : ¬(0 < i ∧ 0 < v - i)) :
    synthesizedSamples v i = [] := by
  rw [synthesizedSamples, dif_neg h]

theorem synthesizedSamples_of_pos (v i : Int) (h : 0 < i ∧ 0 < v - i) :
    synthesizedSamples v i = (v - i) :: synthesizedSamples (v - i) i := by
  rw [synthesizedSamples, dif_pos h]

theorem mem_synthesizedSamples (v i x : Int) (hi : 0 < i) :
    x ∈ synthesizedSamples v i ↔ ∃ k : Nat, x = v - (k + 1) * i ∧ 0 < x := by
  induction v, i using synthesizedSamples.induct with
  | case1 v i hc ih =>
    rw [synthesizedSamples_of_pos v i hc]
    simp only [List.mem_cons, ih hi]
    constructor
    · rintro (rfl | ⟨k, rfl, hx⟩)
      · exact ⟨0, by ring_nf, by omega⟩
      · exact ⟨k + 1, by push_cast; ring_nf, hx⟩
    · rintro ⟨k, rfl, hx⟩
      cases k with
      | zero => left; ring_nf
      | succ k' => right; exact ⟨k', by push_cast; ring_nf, hx⟩
  | case2 v i hc =>
    rw [synthesizedSamples_of_neg v i hc]
    simp only [List.not_mem_nil, false_iff]
    rintro ⟨k, rfl, hx⟩
    have hki : 0 ≤ (k : Int) * i := mul_nonneg (Int.ofNat_nonneg k) hi.le
    have : ((k : Int) + 1) * i = (k : Int) * i + i := by ring
    omega

end Hdr

namespace Hdr

theorem length_synthesizedSamples (v i : Int) (hi : 0 < i) (hv : 0 < v) :
    ((synthesizedSamples v i).length : Int) = (v - 1) / i := by
  induction v, i using synthesizedSamples.induct with
  | case1 v i hc ih =>
    rw [synthesizedSamples_of_pos v i hc]
    have hrec := ih hi (by omega)
    have hstep : (v - 1) / i = (v - i - 1) / i + 1 := by
      have : v - 1 = (v - i - 1) + 1 * i := by ring
      rw [this, Int.add_mul_ediv_right _ _ (by omega : i ≠ 0)]
    simp only [List.length_cons]
    push_cast
    omega
  | case2 v i hc =>
    rw [synthesizedSamples_of_neg v i hc]
    have hvi : v ≤ i := by omega
    have : (v - 1) / i = 0 := Int.ediv_eq_zero_of_lt (by omega) (by omega)
    simp [this]

theorem synthesizedSamples_bounds (v i x : Int) (hi : 0 < i)
    (hx : x ∈ synthesizedSamples v i) : 0 < x ∧ x < v := by
  obtain ⟨k, rfl, hpos⟩ := (mem_synthesizedSamples v i x hi).mp hx
  have hki : 0 ≤ (k : Int) * i := mul_nonneg (Int.ofNat_nonneg k) hi.le
  have : ((k : Int) + 1) * i = (k : Int) * i + i := by ring
  constructor
  · exact hpos
  · omega

theorem RecordValue_ok (h : Histogram) (v : Int) (h1 : 1 ≤ v)
    (h2 : v ≤ maxRecordableLatencyNS) :
    h.RecordValue v = .ok ⟨v :: h.samples⟩ := by
  simp [Histogram.RecordValue, h1, h2]

theorem RecordAll_ok (h : Histogram) (l : List Int)
    (hl : ∀ x ∈ l, 1 ≤ x ∧ x ≤ maxRecordableLatencyNS) :
    h.RecordAll l = .ok ⟨l.reverse ++ h.samples⟩ := by
  induction l generalizing h with
  | nil => simp [Histogram.RecordAll]
  | cons a rest ih =>
    have ha := hl a (List.mem_cons_self a rest)
    rw [Histogram.RecordAll, RecordValue_ok h a ha.1 ha.2]
    show Histogram.RecordAll ⟨a :: h.samples⟩ rest = _
    rw [ih ⟨a :: h.samples⟩ (fun x hx => hl x (List.mem_cons_of_mem a hx))]
    simp

theorem RecordCorrectedValue_of_le (h : Histogram) (v i : Int) (hvi : v ≤ i) :
    h.RecordCorrectedValue v i = h.RecordValue v := by
  unfold Histogram.RecordCorrectedValue
  cases hr : h.RecordValue v with
  | error e => rfl
  | ok h1 => simp [hvi]

theorem RecordCorrectedValue_ok (h : Histogram) (v i : Int)
    (h1 : 1 ≤ v) (h2 : v ≤ maxRecordableLatencyNS) (hi : 0 < i) (hvi : i < v) :
    h.RecordCorrectedValue v i =
      .ok ⟨(synthesizedSamples v i).reverse ++ v :: h.samples⟩ := by
  unfold Histogram.RecordCorrectedValue
  rw [RecordValue_ok h v h1 h2]
  simp only [not_le.mpr hvi, if_false]
  exact RecordAll_ok _ _ fun x hx => by
    have := synthesizedSamples_bounds v i x hi hx
    omega

end Hdr

namespace Bench

theorem runFullThrottleLoop_ok (duration : Int) (reqs : List (Int × Option String)) :
    ∀ (now : Int) (c : ConnectionBenchmark),
    (∀ p ∈ reqs, p.2 = none ∧ 1 ≤ p.1 ∧ p.1 ≤ Hdr.maxRecordableLatencyNS) →
    runFullThrottleLoop duration now reqs c =
      ({ c with
          histogram := ⟨(fullThrottleExecuted duration now reqs).reverse ++ c.histogram.samples⟩
          totalRequests := c.totalRequests + (fullThrottleExecuted duration now reqs).length },
       .ok (now + (fullThrottleExecuted duration now reqs).sum)) := by
  induction reqs with
  | nil =>
    intro now c _
    rw [runFullThrottleLoop.eq_def, fullThrottleExecuted.eq_def]
    split <;> simp
  | cons p rest ih =>
    intro now c hreq
    obtain ⟨lat, outcome⟩ := p
    have hp := hreq (lat, outcome) (List.mem_cons_self _ _)
    have hrest : ∀ q ∈ rest, q.2 = none ∧ 1 ≤ q.1 ∧ q.1 ≤ Hdr.maxRecordableLatencyNS :=
      fun q hq => hreq q (List.mem_cons_of_mem _ hq)
    rw [runFullThrottleLoop.eq_def, fullThrottleExecuted.eq_def]
    by_cases hstop : duration ≤ now
    · simp [hstop]
    · simp only [if_neg hstop]
      obtain ⟨ho, hl1, hl2⟩ := hp
      simp only at ho
      subst ho
      rw [Hdr.RecordValue_ok c.histogram lat hl1 hl2]
      dsimp only
      rw [ih (now + lat) _ hrest]
      simp [List.append_assoc, Nat.add_assoc, Int.add_assoc, Nat.add_comm 1]

end Bench

namespace Bench

theorem runFullThrottleLoop_requestRate (duration : Int)
    (reqs : List (Int × Option String)) :
    ∀ (now : Int) (c : ConnectionBenchmark),
    ((runFullThrottleLoop duration now reqs c).1).requestRate = c.requestRate := by
  induction reqs with
  | nil =>
    intro now c
    rw [runFullThrottleLoop.eq_def]
    split <;> rfl
  | cons p rest ih =>
    intro now c
    obtain ⟨lat, outcome⟩ := p
    rw [runFullThrottleLoop.eq_def]
    by_cases hstop : duration ≤ now
    · simp [hstop]
    · simp only [if_neg hstop]
      cases outcome with
      | some e => rfl
      | none =>
        cases hr : c.histogram.RecordValue lat with
        | error e => simp
        | ok hist => simp [ih]

theorem runRateLimitedLoop_requestRate (interval duration : Int)
    (reqs : List (Int × Option String)) :
    ∀ (now : Int) (c : ConnectionBenchmark),
    ((runRateLimitedLoop interval duration now reqs c).1).requestRate = c.requestRate := by
  induction reqs with
  | nil =>
    intro now c
    rw [runRateLimitedLoop.eq_def]
    split <;> rfl
  | cons p rest ih =>
    intro now c
    obtain ⟨lat, outcome⟩ := p
    rw [runRateLimitedLoop.eq_def]
    by_cases hstop : duration ≤ now
    · simp [hstop]
    · simp only [if_neg hstop]
      cases outcome with
      | some e => rfl
      | none =>
        cases hr : c.histogram.RecordCorrectedValue lat interval with
        | error e => simp
        | ok hist =>
          cases hu : c.uncorrectedHistogram.RecordValue lat with
          | error e => simp
          | ok uhist => simp [ih]

theorem run_summary_requestRate (c : ConnectionBenchmark) :
    ((ConnectionBenchmark.run c).summary).RequestRate = c.requestRate := by
  unfold ConnectionBenchmark.run
  have h1 : (if c.requestRate = 0 then c.runFullThrottle else c.runRateLimited).1.requestRate
      = c.requestRate := by
    split
    · exact runFullThrottleLoop_requestRate _ _ _ _
    · exact runRateLimitedLoop_requestRate _ _ _ _ _
  generalize hg : (if c.requestRate = 0 then c.runFullThrottle else c.runRateLimited) = pr at h1 ⊢
  obtain ⟨c', r⟩ := pr
  cases r with
  | ok e => simpa [ConnectionBenchmark.summarize] using h1
  | error m => simpa [ConnectionBenchmark.summarize] using h1

theorem setupAll_ok (l : List ConnectionBenchmark) :
    ∀ i : Nat, (∀ cb ∈ l, cb.requester.setupErr = none) →
    setupAll l i =
      (l.map (fun c => (c.setup).1), (List.range' i l.length).map Action.setup, none) := by
  induction l with
  | nil => intro i _; rfl
  | cons c rest ih =>
    intro i hl
    have hc := hl c (List.mem_cons_self _ _)
    rw [setupAll]
    simp only [ConnectionBenchmark.setup, hc]
    rw [ih (i + 1) (fun cb hcb => hl cb (List.mem_cons_of_mem _ hcb))]
    simp [List.range'_succ, ConnectionBenchmark.setup]

theorem setupAll_error (l₁ : List ConnectionBenchmark) (c : ConnectionBenchmark)
    (l₂ : List ConnectionBenchmark) (e : String) :
    ∀ i : Nat, (∀ cb ∈ l₁, cb.requester.setupErr = none) →
    c.requester.setupErr = some e →
    setupAll (l₁ ++ c :: l₂) i =
      (l₁.map (fun x => (x.setup).1) ++ [(c.setup).1],
       (List.range' i (l₁.length + 1)).map Action.setup, some e) := by
  induction l₁ with
  | nil =>
    intro i _ hc
    rw [List.nil_append, setupAll]
    simp [ConnectionBenchmark.setup, hc, List.range'_succ]
  | cons a rest ih =>
    intro i hl hc
    have ha := hl a (List.mem_cons_self _ _)
    rw [List.cons_append, setupAll]
    simp only [ConnectionBenchmark.setup, ha]
    rw [ih (i + 1) (fun cb hcb => hl cb (List.mem_cons_of_mem _ hcb)) hc]
    simp [List.range'_succ, ConnectionBenchmark.setup]

theorem teardownAll_ok (l : List ConnectionBenchmark) :
    ∀ i : Nat, (∀ cb ∈ l, cb.requester.teardownErr = none) →
    teardownAll l i = ((List.range' i l.length).map Action.teardown, none) := by
  induction l with
  | nil => intro i _; rfl
  | cons c rest ih =>
    intro i hl
    have hc := hl c (List.mem_cons_self _ _)
    rw [teardownAll]
    simp only [ConnectionBenchmark.teardown, hc]
    rw [ih (i + 1) (fun cb hcb => hl cb (List.mem_cons_of_mem _ hcb))]
    simp [List.range'_succ]

theorem teardownAll_error (l₁ : List ConnectionBenchmark) (c : ConnectionBenchmark)
    (l₂ : List ConnectionBenchmark) (e : String) :
    ∀ i : Nat, (∀ cb ∈ l₁, cb.requester.teardownErr = none) →
    c.requester.teardownErr = some e →
    teardownAll (l₁ ++ c :: l₂) i =
      ((List.range' i (l₁.length + 1)).map Action.teardown, some e) := by
  induction l₁ with
  | nil =>
    intro i _ hc
    rw [List.nil_append, teardownAll]
    simp [ConnectionBenchmark.teardown, hc, List.range'_succ]
  | cons a rest ih =>
    intro i hl hc
    have ha := hl a (List.mem_cons_self _ _)
    rw [List.cons_append, teardownAll]
    simp only [ConnectionBenchmark.teardown, ha]
    rw [ih (i + 1) (fun cb hcb => hl cb (List.mem_cons_of_mem _ hcb)) hc]
    simp [List.range'_succ]

theorem mergeRest_error (l : List RunResult) :
    ∀ s : Summary, (∃ r ∈ l, r.err ≠ none) →
    ∃ e, mergeRest s l = .error e ∧ ∃ r ∈ l, r.err = some e := by
  induction l with
  | nil => intro s h; simp at h
  | cons r rest ih =>
    intro s h
    cases hr : r.err with
    | some e =>
      refine ⟨e, ?_, r, List.mem_cons_self _ _, hr⟩
      rw [mergeRest]
      simp [hr]
    | none =>
      obtain ⟨r', hr', hne⟩ := h
      rcases List.mem_cons.mp hr' with rfl | hmem
      · exact absurd hr hne
      · obtain ⟨e, heq, r'', hmem'', herr''⟩ := ih (s.merge r.summary) ⟨r', hmem, hne⟩
        refine ⟨e, ?_, r'', List.mem_cons_of_mem _ hmem'', herr''⟩
        rw [mergeRest]
        simp [hr, heq]

theorem mergeResults_error (l : List RunResult) (h : ∃ r ∈ l, r.err ≠ none) :
    ∃ e, mergeResults l = .error e ∧ ∃ r ∈ l, r.err = some e := by
  cases l with
  | nil => simp at h
  | cons r rest =>
    cases hr : r.err with
    | some e =>
      refine ⟨e, ?_, r, List.mem_cons_self _ _, hr⟩
      rw [mergeResults]
      simp [hr]
    | none =>
      obtain ⟨r', hr', hne⟩ := h
      rcases List.mem_cons.mp hr' with rfl | hmem
      · exact absurd hr hne
      · obtain ⟨e, heq, r'', hmem'', herr''⟩ := mergeRest_error rest r.summary ⟨r', hmem, hne⟩
        refine ⟨e, ?_, r'', List.mem_cons_of_mem _ hmem'', herr''⟩
        rw [mergeResults]
        simp [hr, heq]

theorem mergeRest_rate0 (l : List RunResult) :
    ∀ s : Summary, s.RequestRate = 0 → (∀ r ∈ l, r.summary.RequestRate = 0) →
    ∀ s', mergeRest s l = .ok s' → s'.RequestRate = 0 := by
  induction l with
  | nil =>
    intro s hs _ s' h
    rw [mergeRest] at h
    cases h
    exact hs
  | cons r rest ih =>
    intro s hs hl s' h
    rw [mergeRest] at h
    cases hr : r.err with
    | some e => rw [hr] at h; cases h
    | none =>
      rw [hr] at h
      refine ih (s.merge r.summary) ?_ (fun q hq => hl q (List.mem_cons_of_mem _ hq)) s' h
      have : (s.merge r.summary).RequestRate = s.RequestRate + r.summary.RequestRate := rfl
      rw [this, hs, hl r (List.mem_cons_self _ _)]

theorem mergeResults_rate0 (l : List RunResult)
    (hl : ∀ r ∈ l, r.summary.RequestRate = 0) :
    ∀ s', mergeResults l = .ok s' → s'.RequestRate = 0 := by
  intro s' h
  cases l with
  | nil => rw [mergeResults] at h; cases h
  | cons r rest =>
    rw [mergeResults] at h
    cases hr : r.err with
    | some e => rw [hr] at h; cases h
    | none =>
      rw [hr] at h
      exact mergeRest_rate0 rest r.summary (hl r (List.mem_cons_self _ _))
        (fun q hq => hl q (List.mem_cons_of_mem _ hq)) s' h

end Bench

namespace Hdr

theorem RecordCorrectedValue_isOk (h : Histogram) (v i : Int)
    (h1 : 1 ≤ v) (h2 : v ≤ maxRecordableLatencyNS) :
    ∃ h', h.RecordCorrectedValue v i = .ok h' := by
  unfold Histogram.RecordCorrectedValue
  rw [RecordValue_ok h v h1 h2]
  by_cases hvi : v ≤ i
  · exact ⟨⟨v :: h.samples⟩, by simp [hvi]⟩
  · simp only [if_neg hvi]
    refine ⟨_, RecordAll_ok _ _ fun x hx => ?_⟩
    by_cases hi : 0 < i
    · have := synthesizedSamples_bounds v i x hi hx
      omega
    · rw [synthesizedSamples_of_neg v i (fun hcon => hi hcon.1)] at hx
      cases hx

end Hdr

namespace TrackedBench

theorem runRateLimitedLoop_allfail (interval duration : Int)
    (reqs : List (Int × Option String)) :
    ∀ (now : Int) (c : ConnectionBenchmark),
    (∀ p ∈ reqs, p.2 ≠ none ∧ 1 ≤ p.1 ∧ p.1 ≤ Hdr.maxRecordableLatencyNS) →
    ∃ eh ueh t,
      runRateLimitedLoop interval duration now reqs c =
        ({ c with errorHistogram := eh
                  uncorrectedErrorHistogram := ueh
                  errorTotal := c.errorTotal + rateLimitedAttempts interval duration now reqs },
         .ok t) := by
  induction reqs with
  | nil =>
    intro now c _
    refine ⟨c.errorHistogram, c.uncorrectedErrorHistogram, now, ?_⟩
    rw [runRateLimitedLoop.eq_def, rateLimitedAttempts.eq_def]
    split <;> simp
  | cons p rest ih =>
    intro now c hreq
    obtain ⟨lat, outcome⟩ := p
    have hp := hreq (lat, outcome) (List.mem_cons_self _ _)
    have hrest : ∀ q ∈ rest, q.2 ≠ none ∧ 1 ≤ q.1 ∧ q.1 ≤ Hdr.maxRecordableLatencyNS :=
      fun q hq => hreq q (List.mem_cons_of_mem _ hq)
    rw [runRateLimitedLoop.eq_def, rateLimitedAttempts.eq_def]
    by_cases hstop : duration ≤ now
    · refine ⟨c.errorHistogram, c.uncorrectedErrorHistogram, now, ?_⟩
      simp [hstop]
    · simp only [if_neg hstop]
      obtain ⟨hno, hl1, hl2⟩ := hp
      cases outcome with
      | none => exact absurd rfl hno
      | some msg =>
        obtain ⟨eh1, heh1⟩ :=
          Hdr.RecordCorrectedValue_isOk c.errorHistogram lat interval hl1 hl2
        rw [heh1, Hdr.RecordValue_ok c.uncorrectedErrorHistogram lat hl1 hl2]
        dsimp only
        obtain ⟨eh, ueh, t, hres⟩ := ih (now + max lat interval)
          { c with errorHistogram := eh1
                   uncorrectedErrorHistogram := ⟨lat :: c.uncorrectedErrorHistogram.samples⟩
                   errorTotal := c.errorTotal + 1 } hrest
        rw [hres]
        refine ⟨eh, ueh, t, ?_⟩
        simp [Nat.add_assoc, Nat.add_comm 1]

theorem runFullThrottleLoop_allfail (duration : Int)
    (reqs : List (Int × Option String)) :
    ∀ (now : Int) (c : ConnectionBenchmark),
    (∀ p ∈ reqs, p.2 ≠ none ∧ 1 ≤ p.1 ∧ p.1 ≤ Hdr.maxRecordableLatencyNS) →
    ∃ eh t,
      runFullThrottleLoop duration now reqs c =
        ({ c with errorHistogram := eh
                  errorTotal := c.errorTotal + fullThrottleAttempts duration now reqs },
         .ok t) := by
  induction reqs with
  | nil =>
    intro now c _
    refine ⟨c.errorHistogram, now, ?_⟩
    rw [runFullThrottleLoop.eq_def, fullThrottleAttempts.eq_def]
    split <;> simp
  | cons p rest ih =>
    intro now c hreq
    obtain ⟨lat, outcome⟩ := p
    have hp := hreq (lat, outcome) (List.mem_cons_self _ _)
    have hrest : ∀ q ∈ rest, q.2 ≠ none ∧ 1 ≤ q.1 ∧ q.1 ≤ Hdr.maxRecordableLatencyNS :=
      fun q hq => hreq q (List.mem_cons_of_mem _ hq)
    rw [runFullThrottleLoop.eq_def, fullThrottleAttempts.eq_def]
    by_cases hstop : duration ≤ now
    · refine ⟨c.errorHistogram, now, ?_⟩
      simp [hstop]
    · simp only [if_neg hstop]
      obtain ⟨hno, hl1, hl2⟩ := hp
      cases outcome with
      | none => exact absurd rfl hno
      | some msg =>
        rw [Hdr.RecordValue_ok c.errorHistogram lat hl1 hl2]
        dsimp only
        obtain ⟨eh, t, hres⟩ := ih (now + lat)
          { c with errorHistogram := ⟨lat :: c.errorHistogram.samples⟩
                   errorTotal := c.errorTotal + 1 } hrest
        rw [hres]
        refine ⟨eh, t, ?_⟩
        simp [Nat.add_assoc, Nat.add_comm 1]

theorem run_allfail (c : ConnectionBenchmark)
    (hreq : ∀ p ∈ c.requester.requests,
      p.2 ≠ none ∧ 1 ≤ p.1 ∧ p.1 ≤ Hdr.maxRecordableLatencyNS) :
    (ConnectionBenchmark.run c).err = none ∧
    (ConnectionBenchmark.run c).summary.SuccessTotal = c.successTotal ∧
    (ConnectionBenchmark.run c).summary.ErrorTotal =
      c.errorTotal + c.attempts := by
  unfold ConnectionBenchmark.run ConnectionBenchmark.attempts
  by_cases h0 : c.requestRate = 0
  · obtain ⟨eh, t, hres⟩ :=
      runFullThrottleLoop_allfail c.duration c.requester.requests 0 c hreq
    simp only [h0, if_pos rfl]
    rw [show c.runFullThrottle = runFullThrottleLoop c.duration 0 c.requester.requests c from rfl]
    rw [hres]
    exact ⟨rfl, rfl, rfl⟩
  · obtain ⟨eh, ueh, t, hres⟩ :=
      runRateLimitedLoop_allfail c.expectedInterval c.duration c.requester.requests 0 c hreq
    simp only [h0, if_neg h0]
    rw [show c.runRateLimited =
      runRateLimitedLoop c.expectedInterval c.duration 0 c.requester.requests c from rfl]
    rw [hres]
    exact ⟨rfl, rfl, rfl⟩

end TrackedBench

namespace TrackedBench

theorem trackedSetupAll_ok (l : List ConnectionBenchmark)
    (hl : ∀ cb ∈ l, cb.requester.setupErr = none) :
    setupAll l = (l.map (fun c => (c.setup).1), none) := by
  induction l with
  | nil => rfl
  | cons c rest ih =>
    have hc := hl c (List.mem_cons_self _ _)
    rw [setupAll]
    simp only [ConnectionBenchmark.setup, hc]
    rw [ih (fun cb hcb => hl cb (List.mem_cons_of_mem _ hcb))]
    simp [ConnectionBenchmark.setup]

theorem trackedTeardownAll_ok (l : List ConnectionBenchmark)
    (hl : ∀ cb ∈ l, cb.requester.teardownErr = none) :
    teardownAll l = none := by
  induction l with
  | nil => rfl
  | cons c rest ih =>
    have hc := hl c (List.mem_cons_self _ _)
    rw [teardownAll]
    simp only [ConnectionBenchmark.teardown, hc]
    exact ih (fun cb hcb => hl cb (List.mem_cons_of_mem _ hcb))

theorem mergeRest_totals (l : List RunResult) :
    ∀ s : Summary, (∀ r ∈ l, r.err = none) →
    ∃ s', mergeRest s l = .ok s' ∧
      s'.SuccessTotal = s.SuccessTotal + (l.map (fun r => r.summary.SuccessTotal)).sum ∧
      s'.ErrorTotal = s.ErrorTotal + (l.map (fun r => r.summary.ErrorTotal)).sum := by
  induction l with
  | nil =>
    intro s _
    exact ⟨s, rfl, by simp, by simp⟩
  | cons r rest ih =>
    intro s hl
    have hr := hl r (List.mem_cons_self _ _)
    rw [mergeRest]
    obtain ⟨s', hs', h1, h2⟩ :=
      ih (s.merge r.summary) (fun q hq => hl q (List.mem_cons_of_mem _ hq))
    refine ⟨s', ?_, ?_, ?_⟩
    · rw [hr]
      exact hs'
    · rw [h1]
      have hm : (s.merge r.summary).SuccessTotal = s.SuccessTotal + r.summary.SuccessTotal := rfl
      rw [hm, List.map_cons, List.sum_cons, Nat.add_assoc]
    · rw [h2]
      have hm : (s.merge r.summary).ErrorTotal = s.ErrorTotal + r.summary.ErrorTotal := rfl
      rw [hm, List.map_cons, List.sum_cons, Nat.add_assoc]

theorem mergeResults_totals (l : List RunResult) (r0 : RunResult)
    (hl : ∀ r ∈ r0 :: l, r.err = none) :
    ∃ s', mergeResults (r0 :: l) = .ok s' ∧
      s'.SuccessTotal = ((r0 :: l).map (fun r => r.summary.SuccessTotal)).sum ∧
      s'.ErrorTotal = ((r0 :: l).map (fun r => r.summary.ErrorTotal)).sum := by
  rw [mergeResults]
  have hr0 := hl r0 (List.mem_cons_self _ _)
  rw [hr0]
  obtain ⟨s', hs', h1, h2⟩ :=
    mergeRest_totals l r0.summary (fun q hq => hl q (List.mem_cons_of_mem _ hq))
  exact ⟨s', hs', by simpa using h1, by simpa using h2⟩

theorem Run_allfail (b : Benchmark)
    (hne : b.benchmarks ≠ [])
    (hsetup : ∀ cb ∈ b.benchmarks, cb.requester.setupErr = none)
    (htd : ∀ cb ∈ b.benchmarks, cb.requester.teardownErr = none)
    (hreq : ∀ cb ∈ b.benchmarks, ∀ p ∈ cb.requester.requests,
      p.2 ≠ none ∧ 1 ≤ p.1 ∧ p.1 ≤ Hdr.maxRecordableLatencyNS) :
    ∃ s, b.Run = .ok s ∧ s.SuccessTotal = 0 ∧
      s.ErrorTotal = (b.benchmarks.map ConnectionBenchmark.attempts).sum := by
  unfold Benchmark.Run
  rw [trackedSetupAll_ok b.benchmarks hsetup]
  dsimp only
  rw [trackedTeardownAll_ok (b.benchmarks.map (fun c => (c.setup).1))
    (by
      intro cb hcb
      obtain ⟨cb0, hcb0, rfl⟩ := List.mem_map.mp hcb
      exact htd cb0 hcb0)]
  obtain ⟨x, xs, hb⟩ := List.exists_cons_of_ne_nil hne
  have hcons : (b.benchmarks.map (fun c => (c.setup).1)).map ConnectionBenchmark.run
      = ConnectionBenchmark.run ((x.setup).1)
        :: (xs.map (fun c => (c.setup).1)).map ConnectionBenchmark.run := by
    rw [hb]
    rfl
  have hallfail : ∀ cb ∈ b.benchmarks,
      (ConnectionBenchmark.run ((cb.setup).1)).err = none ∧
      (ConnectionBenchmark.run ((cb.setup).1)).summary.SuccessTotal = 0 ∧
      (ConnectionBenchmark.run ((cb.setup).1)).summary.ErrorTotal = cb.attempts := by
    intro cb hcb
    have := run_allfail ((cb.setup).1) (hreq cb hcb)
    simpa [ConnectionBenchmark.setup, ConnectionBenchmark.attempts] using this
  have herr : ∀ r ∈ (b.benchmarks.map (fun c => (c.setup).1)).map ConnectionBenchmark.run,
      r.err = none := by
    intro r hr
    rw [List.map_map] at hr
    obtain ⟨cb, hcb, rfl⟩ := List.mem_map.mp hr
    exact (hallfail cb hcb).1
  have hS : ((b.benchmarks.map (fun c => (c.setup).1)).map ConnectionBenchmark.run).map
      (fun r => r.summary.SuccessTotal) = b.benchmarks.map (fun _ => 0) := by
    rw [List.map_map, List.map_map]
    exact List.map_congr_left (fun cb hcb => (hallfail cb hcb).2.1)
  have hE : ((b.benchmarks.map (fun c => (c.setup).1)).map ConnectionBenchmark.run).map
      (fun r => r.summary.ErrorTotal) = b.benchmarks.map ConnectionBenchmark.attempts := by
    rw [List.map_map, List.map_map]
    exact List.map_congr_left (fun cb hcb => (hallfail cb hcb).2.2)
  rw [hcons] at herr hS hE
  obtain ⟨s', hs', h1, h2⟩ := mergeResults_totals
    ((xs.map (fun c => (c.setup).1)).map ConnectionBenchmark.run)
    (ConnectionBenchmark.run ((x.setup).1)) herr
  rw [hcons, hs']
  refine ⟨_, rfl, ?_, ?_⟩
  · show s'.SuccessTotal = 0
    rw [h1, hS]
    simp
  · show s'.ErrorTotal = _
    rw [h2, hE]

end TrackedBench

namespace Bench

theorem run_dispatch_zero (c : ConnectionBenchmark) (h0 : c.requestRate = 0) :
    ConnectionBenchmark.run c =
      (match c.runFullThrottle with
       | (c', .ok e) => { err := none, summary := ({ c' with elapsed := e }).summarize }
       | (c', .error msg) => { err := some msg, summary := ({ c' with elapsed := 0 }).summarize }) := by
  unfold ConnectionBenchmark.run
  rw [if_pos h0]
  obtain ⟨c', r⟩ := c.runFullThrottle
  cases r <;> rfl

theorem setupAll_mem (l : List ConnectionBenchmark) :
    ∀ (i : Nat), ∀ cb' ∈ (setupAll l i).1, ∃ cb ∈ l, cb' = (cb.setup).1 := by
  induction l with
  | nil => intro i cb' h; cases h
  | cons c rest ih =>
    intro i cb' h
    rw [setupAll] at h
    cases hc : c.requester.setupErr with
    | some e =>
      simp only [ConnectionBenchmark.setup, hc] at h
      rcases List.mem_singleton.mp h with rfl
      exact ⟨c, List.mem_cons_self _ _, rfl⟩
    | none =>
      simp only [ConnectionBenchmark.setup, hc] at h
      rcases List.mem_cons.mp h with rfl | hmem
      · exact ⟨c, List.mem_cons_self _ _, rfl⟩
      · obtain ⟨cb, hcb, rfl⟩ := ih (i + 1) cb' hmem
        exact ⟨cb, List.mem_cons_of_mem _ hcb, rfl⟩

end Bench

/-- C2: merging is additive on counts and takes the maximum elapsed time:
the recorder merge adds total counts, and `Summary.merge` — in both the
single-histogram and the four-histogram revision — adds the request totals
and keeps the maximum of the two elapsed times. -/
theorem claim2_merge_additive :
    (∀ h o : Hdr.Histogram, (h.Merge o).TotalCount = h.TotalCount + o.TotalCount) ∧
    (∀ s o : Bench.Summary,
      (s.merge o).TotalRequests = s.TotalRequests + o.TotalRequests ∧
      (s.merge o).TimeElapsed = max s.TimeElapsed o.TimeElapsed) ∧
    (∀ s o : TrackedBench.Summary,
      (s.merge o).SuccessTotal = s.SuccessTotal + o.SuccessTotal ∧
      (s.merge o).ErrorTotal = s.ErrorTotal + o.ErrorTotal ∧
      (s.merge o).TimeElapsed = max s.TimeElapsed o.TimeElapsed) := by
  refine ⟨fun h o => ?_, fun s o => ⟨rfl, ?_⟩, fun s o => ⟨rfl, rfl, ?_⟩⟩
  · simp [Hdr.Histogram.Merge, Hdr.Histogram.TotalCount]
  · show (if o.TimeElapsed > s.TimeElapsed then o.TimeElapsed else s.TimeElapsed) = _
    split <;> omega
  · show (if o.TimeElapsed > s.TimeElapsed then o.TimeElapsed else s.TimeElapsed) = _
    split <;> omega

/-- C5: `NewBenchmark` treats zero connections as one; for a positive
connection count it builds exactly that many connection benchmarks, binds
the i-th to `factory.GetRequester(i)`, and gives each the per-connection
rate `requestRate / connections` with integer division (the remainder is
dropped). -/
theorem claim5_newBenchmark (factory : Nat → Requester) (r c : Nat) (d : Int) :
    Bench.NewBenchmark factory r 0 d = Bench.NewBenchmark factory r 1 d ∧
    (0 < c →
      (Bench.NewBenchmark factory r c d).benchmarks.length = c ∧
      ∀ i, i < c →
        (Bench.NewBenchmark factory r c d).benchmarks[i]? =
          some (Bench.newConnectionBenchmark (factory i) (r / c) d)) := by
  constructor
  · rfl
  · intro hc
    have hcne : ¬(c = 0) := by omega
    constructor
    · simp [Bench.NewBenchmark, hcne]
    · intro i hi
      simp [Bench.NewBenchmark, hcne, List.getElem?_map, List.getElem?_range, hi]

/-- C5 witness: three connections at aggregate rate 7 — exactly three
benchmarks, the second bound to requester 1 with rate `7 / 3 = 2`. -/
theorem claim5_witness :
    (Bench.NewBenchmark quickFactory 7 3 5).benchmarks.length = 3 ∧
    (Bench.NewBenchmark quickFactory 7 3 5).benchmarks[1]? =
      some (Bench.newConnectionBenchmark (quickFactory 1) (7 / 3) 5) :=
  ⟨((claim5_newBenchmark quickFactory 7 3 5).2 (by norm_num)).1,
   ((claim5_newBenchmark quickFactory 7 3 5).2 (by norm_num)).2 1 (by norm_num)⟩

/-- C9: each distribution row holds the quantile value scaled to
milliseconds, the percentile as a fraction, and `1/(1-fraction)`; the
uncorrected twin file, named by the `uncorrected_` prefixed file name, is
emitted exactly when the summary's request rate is nonzero. -/
theorem claim9_distribution (s : Bench.Summary) (ps : List ℚ) (file : String) :
    Bench.Summary.GenerateLatencyDistribution s (some ps) file =
      (file, ps.map fun p =>
        { value := ((s.Histogram.ValueAtQuantile p : ℚ) / 1000000)
          percentile := p / 100
          totalCount := 0
          oneOverOneMinusPercentile := 1 / (1 - p / 100) }) ::
      (if 0 < s.RequestRate then
        [("uncorrected_" ++ file, ps.map fun p =>
          { value := ((s.UncorrectedHistogram.ValueAtQuantile p : ℚ) / 1000000)
            percentile := p / 100
            totalCount := 0
            oneOverOneMinusPercentile := 1 / (1 - p / 100) })]
      else []) := rfl

/-- C1 counterexample: at `v = 4`, `i = 2` the corrected record synthesizes
the single additional sample `4 - 2 = 2` (`4 - 2·2 = 0` is not positive):
the number of synthesized samples is `1`, not `⌊v/i⌋ = 2`, and the final
synthesized sample is `2`, not the true observed latency `4`. -/
theorem claim1_counterexample :
    Hdr.Histogram.RecordCorrectedValue ⟨[]⟩ 4 2 = Except.ok ⟨[2, 4]⟩ ∧
    Hdr.synthesizedSamples 4 2 = [2] ∧
    (Hdr.synthesizedSamples 4 2).length ≠ ((4 : Int) / 2).toNat ∧
    (4 : Int) ∉ Hdr.synthesizedSamples 4 2 := by
  have h1 : Hdr.synthesizedSamples 4 2 = [2] := by
    rw [Hdr.synthesizedSamples_of_pos 4 2 (by norm_num),
        show (4 : Int) - 2 = 2 by norm_num,
        Hdr.synthesizedSamples_of_neg 2 2 (by omega)]
  refine ⟨?_, h1, ?_, ?_⟩
  · rw [Hdr.RecordCorrectedValue_ok ⟨[]⟩ 4 2 (by norm_num)
        (by norm_num [Hdr.maxRecordableLatencyNS]) (by norm_num) (by norm_num), h1]
    rfl
  · rw [h1]
    decide
  · rw [h1]
    decide

/-- C1 (amended): with `v ≤ i` corrected recording is identical to raw
recording; with `0 < i < v` and `v` in range it records the true value `v`
together with the synthesized samples `v - k·i` (`k ≥ 1`) while the result
stays positive — their number is `⌊(v-1)/i⌋` (that is, `⌈v/i⌉ - 1`), they
are spaced at multiples of `i`, and every synthesized sample is below `v`,
so the largest recorded value is the true observed latency. -/
theorem claim1_corrected (h : Hdr.Histogram) (v i : Int) :
    (v ≤ i → h.RecordCorrectedValue v i = h.RecordValue v) ∧
    (0 < i → i < v → 1 ≤ v → v ≤ Hdr.maxRecordableLatencyNS →
      h.RecordCorrectedValue v i =
        .ok ⟨(Hdr.synthesizedSamples v i).reverse ++ v :: h.samples⟩ ∧
      (∀ x : Int, x ∈ Hdr.synthesizedSamples v i ↔
        ∃ k : Nat, x = v - (k + 1) * i ∧ 0 < x) ∧
      ((Hdr.synthesizedSamples v i).length : Int) = (v - 1) / i ∧
      (∀ x ∈ Hdr.synthesizedSamples v i, x < v)) := by
  constructor
  · exact Hdr.RecordCorrectedValue_of_le h v i
  · intro hi hiv h1 h2
    exact ⟨Hdr.RecordCorrectedValue_ok h v i h1 h2 hi hiv,
      fun x => Hdr.mem_synthesizedSamples v i x hi,
      Hdr.length_synthesizedSamples v i hi (by omega),
      fun x hx => (Hdr.synthesizedSamples_bounds v i x hi hx).2⟩

/-- C1 witness: corrected recording evaluated at `v = 2, i = 3` (the
raw-identical case) and at `v = 5, i = 2` (two synthesized samples,
`⌊(5-1)/2⌋ = 2`). -/
theorem claim1_witness :
    Hdr.Histogram.RecordCorrectedValue ⟨[]⟩ 2 3 = Hdr.Histogram.RecordValue ⟨[]⟩ 2 ∧
    Hdr.Histogram.RecordCorrectedValue ⟨[]⟩ 5 2 =
      .ok ⟨(Hdr.synthesizedSamples 5 2).reverse ++ 5 :: ([] : List Int)⟩ ∧
    ((Hdr.synthesizedSamples 5 2).length : Int) = (5 - 1) / 2 :=
  ⟨(claim1_corrected ⟨[]⟩ 2 3).1 (by norm_num),
   ((claim1_corrected ⟨[]⟩ 5 2).2 (by norm_num) (by norm_num) (by norm_num)
     (by norm_num [Hdr.maxRecordableLatencyNS])).1,
   ((claim1_corrected ⟨[]⟩ 5 2).2 (by norm_num) (by norm_num) (by norm_num)
     (by norm_num [Hdr.maxRecordableLatencyNS])).2.2.1⟩

/-- C3 counterexample: a concrete two-connection unthrottled run whose
connections take 10ns and 20ns respectively — the merged final Summary
returned by `Run` has throughput `1.5e8` (the sum of the per-runner
throughputs), while its total requests over its elapsed seconds is
`2 / (20ns) = 1e8`, so the claimed relation fails on the merged Summary. -/
theorem claim3_counterexample :
    (Bench.Benchmark.Run (Bench.NewBenchmark twoSpeedFactory 0 2 10)).1 =
      Except.ok
        { Connections := 2, RequestRate := 0, TotalRequests := 2, TimeElapsed := 20,
          Histogram := ⟨[10, 20]⟩, UncorrectedHistogram := ⟨[]⟩,
          Throughput := 150000000 } ∧
    (150000000 : ℚ) ≠ ((2 : ℚ) / ((20 : ℚ) / 1000000000)) := by
  constructor
  · norm_num [Bench.Benchmark.Run, Bench.NewBenchmark, Bench.setupAll, Bench.teardownAll,
      Bench.mergeResults, Bench.mergeRest, Bench.ConnectionBenchmark.run,
      Bench.ConnectionBenchmark.runFullThrottle, Bench.runFullThrottleLoop,
      Bench.ConnectionBenchmark.setup, Bench.ConnectionBenchmark.teardown,
      Bench.newConnectionBenchmark, Hdr.Histogram.RecordValue, Hdr.Histogram.New,
      Bench.ConnectionBenchmark.summarize, Bench.Summary.merge, Hdr.Histogram.Merge,
      twoSpeedFactory, List.range_succ, Hdr.maxRecordableLatencyNS]
  · norm_num

/-- C3 (amended): every per-runner partial Summary has
`Throughput = totalRequests / elapsedSeconds`; the merged Summary's
throughput is the sum of the merged throughputs, so the relation carries
over to a merged Summary only when the merged runners' elapsed times
coincide. -/
theorem claim3_corrected :
    (∀ c : Bench.ConnectionBenchmark,
      (c.summarize).Throughput = (c.totalRequests : ℚ) / ((c.elapsed : ℚ) / 1000000000)) ∧
    (∀ s o : Bench.Summary, (s.merge o).Throughput = s.Throughput + o.Throughput) ∧
    (∀ s o : Bench.Summary,
      s.Throughput = (s.TotalRequests : ℚ) / ((s.TimeElapsed : ℚ) / 1000000000) →
      o.Throughput = (o.TotalRequests : ℚ) / ((o.TimeElapsed : ℚ) / 1000000000) →
      s.TimeElapsed = o.TimeElapsed →
      (s.merge o).Throughput =
        ((s.merge o).TotalRequests : ℚ) / (((s.merge o).TimeElapsed : ℚ) / 1000000000)) := by
  refine ⟨fun c => rfl, fun s o => rfl, fun s o hs ho heq => ?_⟩
  have hT : (s.merge o).Throughput = s.Throughput + o.Throughput := rfl
  have hR : (s.merge o).TotalRequests = s.TotalRequests + o.TotalRequests := rfl
  have hE : (s.merge o).TimeElapsed = s.TimeElapsed := by
    show (if o.TimeElapsed > s.TimeElapsed then o.TimeElapsed else s.TimeElapsed) = _
    rw [heq]
    simp
  rw [hT, hR, hE, hs, ho, ← heq]
  push_cast
  rw [div_add_div_same]

/-- C3 witness: two equal partial Summaries (1 request in 10ns each), both
throughput-consistent, merge into a throughput-consistent Summary. -/
theorem claim3_witness :
    ((⟨0, 0, 1, 10, ⟨[10]⟩, ⟨[]⟩, 100000000⟩ : Bench.Summary).merge
        ⟨0, 0, 1, 10, ⟨[10]⟩, ⟨[]⟩, 100000000⟩).Throughput =
      ((((⟨0, 0, 1, 10, ⟨[10]⟩, ⟨[]⟩, 100000000⟩ : Bench.Summary).merge
        ⟨0, 0, 1, 10, ⟨[10]⟩, ⟨[]⟩, 100000000⟩).TotalRequests : ℚ)) /
      (((((⟨0, 0, 1, 10, ⟨[10]⟩, ⟨[]⟩, 100000000⟩ : Bench.Summary).merge
        ⟨0, 0, 1, 10, ⟨[10]⟩, ⟨[]⟩, 100000000⟩).TimeElapsed : ℚ)) / 1000000000) :=
  claim3_corrected.2.2 _ _ (by norm_num) (by norm_num) rfl

/-- C4: `Run` yields either a Summary or an error, never both.  Under the
fatal policy a fatal error in any one connection's run (request failure or
recording RangeError) makes `Run` return that connection's error and no
Summary, discarding the other connections' results.  Under the tracked
policy, a run in which every request fails returns a Summary whose error
count equals the number of attempts and whose success count is zero. -/
theorem claim4_run_outcomes :
    (∀ b : Bench.Benchmark,
      (∃ e, (Bench.Benchmark.Run b).1 = .error e) ∨
      (∃ s, (Bench.Benchmark.Run b).1 = .ok s)) ∧
    (∀ b : Bench.Benchmark,
      (∀ cb ∈ b.benchmarks, cb.requester.setupErr = none) →
      (∀ cb ∈ b.benchmarks, cb.requester.teardownErr = none) →
      (∃ cb ∈ b.benchmarks,
        (Bench.ConnectionBenchmark.run ((cb.setup).1)).err ≠ none) →
      ∃ e, (Bench.Benchmark.Run b).1 = .error e ∧
        ∃ cb ∈ b.benchmarks,
          (Bench.ConnectionBenchmark.run ((cb.setup).1)).err = some e) ∧
    (∀ b : TrackedBench.Benchmark, b.benchmarks ≠ [] →
      (∀ cb ∈ b.benchmarks, cb.requester.setupErr = none) →
      (∀ cb ∈ b.benchmarks, cb.requester.teardownErr = none) →
      (∀ cb ∈ b.benchmarks, ∀ p ∈ cb.requester.requests,
        p.2 ≠ none ∧ 1 ≤ p.1 ∧ p.1 ≤ Hdr.maxRecordableLatencyNS) →
      ∃ s, TrackedBench.Benchmark.Run b = .ok s ∧ s.SuccessTotal = 0 ∧
        s.ErrorTotal = (b.benchmarks.map TrackedBench.ConnectionBenchmark.attempts).sum) := by
  refine ⟨fun b => ?_, fun b hsetup htd hex => ?_, TrackedBench.Run_allfail⟩
  · cases h : (Bench.Benchmark.Run b).1 with
    | error e => exact Or.inl ⟨e, rfl⟩
    | ok s => exact Or.inr ⟨s, rfl⟩
  · obtain ⟨cb0, hcb0, hne⟩ := hex
    unfold Bench.Benchmark.Run
    rw [Bench.setupAll_ok b.benchmarks 0 hsetup]
    dsimp only
    rw [Bench.teardownAll_ok (b.benchmarks.map fun c => (c.setup).1) 0
      (by
        intro cb hcb
        obtain ⟨cb1, h1, rfl⟩ := List.mem_map.mp hcb
        exact htd cb1 h1)]
    obtain ⟨e, hm, r, hr, herr⟩ := Bench.mergeResults_error
      ((b.benchmarks.map (fun c => (c.setup).1)).map Bench.ConnectionBenchmark.run)
      ⟨Bench.ConnectionBenchmark.run ((cb0.setup).1),
        by
          rw [List.map_map]
          exact List.mem_map.mpr ⟨cb0, hcb0, rfl⟩,
        hne⟩
    rw [hm]
    refine ⟨e, rfl, ?_⟩
    rw [List.map_map] at hr
    obtain ⟨cb1, h1, hrun⟩ := List.mem_map.mp hr
    exact ⟨cb1, h1, by rw [← hrun] at herr; exact herr⟩

/-- C4 witness: a single fatal connection whose only request fails aborts
the run with that error; a single tracked connection whose two requests
both fail yields a Summary with success count 0 and error count equal to
its two attempts. -/
theorem claim4_witness :
    (∃ e, (Bench.Benchmark.Run
        ⟨1, [Bench.newConnectionBenchmark ⟨none, [(1, some "fail")], none⟩ 0 10]⟩).1
          = .error e ∧
      ∃ cb ∈ [Bench.newConnectionBenchmark ⟨none, [(1, some "fail")], none⟩ 0 10],
        (Bench.ConnectionBenchmark.run ((cb.setup).1)).err = some e) ∧
    (∃ s, TrackedBench.Benchmark.Run
        ⟨1, [TrackedBench.newConnectionBenchmark
              ⟨none, [(5, some "e"), (6, some "e2")], none⟩ 0 10]⟩ = .ok s ∧
      s.SuccessTotal = 0 ∧
      s.ErrorTotal = ([TrackedBench.newConnectionBenchmark
              ⟨none, [(5, some "e"), (6, some "e2")], none⟩ 0 10].map
        TrackedBench.ConnectionBenchmark.attempts).sum) :=
  ⟨claim4_run_outcomes.2.1 _ (by decide) (by decide)
      ⟨_, List.mem_singleton.mpr rfl, by decide⟩,
   claim4_run_outcomes.2.2 _ (by decide) (by decide) (by decide)
      (by decide)⟩

/-- C6: setups run sequentially and fail fast — when the runner after the
all-successful prefix `l₁` fails its setup with `e`, `Run` returns exactly
that error, having attempted only the setups of `l₁` and of the failing
runner: no later setup, no run, and no teardown appears in the trace, and
no Summary is produced. -/
theorem claim6_setup_failfast (b : Bench.Benchmark)
    (l₁ : List Bench.ConnectionBenchmark) (c : Bench.ConnectionBenchmark)
    (l₂ : List Bench.ConnectionBenchmark) (e : String)
    (hb : b.benchmarks = l₁ ++ c :: l₂)
    (h1 : ∀ cb ∈ l₁, cb.requester.setupErr = none)
    (hc : c.requester.setupErr = some e) :
    b.Run = (.error e, (List.range (l₁.length + 1)).map Bench.Action.setup) := by
  unfold Bench.Benchmark.Run
  rw [hb, Bench.setupAll_error l₁ c l₂ e 0 h1 hc, List.range_eq_range']

/-- C6 witness: of three runners, the second fails setup with "se" — `Run`
returns "se" and the trace shows only the first two setup attempts. -/
theorem claim6_witness :
    Bench.Benchmark.Run
        ⟨3, [Bench.newConnectionBenchmark ⟨none, [], none⟩ 0 10,
             Bench.newConnectionBenchmark ⟨some "se", [], none⟩ 0 10,
             Bench.newConnectionBenchmark ⟨none, [], none⟩ 0 10]⟩ =
      (.error "se", [Bench.Action.setup 0, Bench.Action.setup 1]) := by
  have := claim6_setup_failfast
    ⟨3, [Bench.newConnectionBenchmark ⟨none, [], none⟩ 0 10,
         Bench.newConnectionBenchmark ⟨some "se", [], none⟩ 0 10,
         Bench.newConnectionBenchmark ⟨none, [], none⟩ 0 10]⟩
    [Bench.newConnectionBenchmark ⟨none, [], none⟩ 0 10]
    (Bench.newConnectionBenchmark ⟨some "se", [], none⟩ 0 10)
    [Bench.newConnectionBenchmark ⟨none, [], none⟩ 0 10]
    "se" rfl (by decide) rfl
  simpa using this

/-- C7 counterexample: one connection sets up and measures successfully
(one 5ns request) but its teardown fails with "boom" — `Run` returns the
teardown error and no Summary, so the collected measurements are not
delivered to the caller. -/
theorem claim7_counterexample :
    (Bench.Benchmark.Run (Bench.NewBenchmark teardownFailFactory 0 0 10)).1 =
      Except.error "boom" ∧
    ((Bench.Benchmark.Run (Bench.NewBenchmark teardownFailFactory 0 0 10)).1).toOption
      = none := by
  constructor
  · rfl
  · rfl

/-- C7 (amended): when every setup succeeds and the teardown of the runner
after the all-successful teardown prefix `l₁` fails with `e`, `Run`
surfaces exactly that teardown error and returns no Summary; the trace
shows that the whole measurement phase ran before the failing teardown, but
the collected measurements are discarded with the error rather than being
returned. -/
theorem claim7_corrected (b : Bench.Benchmark)
    (l₁ : List Bench.ConnectionBenchmark) (c : Bench.ConnectionBenchmark)
    (l₂ : List Bench.ConnectionBenchmark) (e : String)
    (hb : b.benchmarks = l₁ ++ c :: l₂)
    (hsetup : ∀ cb ∈ b.benchmarks, cb.requester.setupErr = none)
    (h1 : ∀ cb ∈ l₁, cb.requester.teardownErr = none)
    (hc : c.requester.teardownErr = some e) :
    b.Run = (.error e,
      (List.range b.benchmarks.length).map Bench.Action.setup ++
      (List.range b.benchmarks.length).map Bench.Action.runConn ++
      (List.range (l₁.length + 1)).map Bench.Action.teardown) := by
  unfold Bench.Benchmark.Run
  rw [Bench.setupAll_ok b.benchmarks 0 hsetup]
  dsimp only
  rw [show b.benchmarks.map (fun c => (c.setup).1) =
        l₁.map (fun x => (x.setup).1) ++ ((c.setup).1) :: l₂.map (fun x => (x.setup).1) by
      rw [hb, List.map_append, List.map_cons]]
  rw [Bench.teardownAll_error (l₁.map fun x => (x.setup).1) ((c.setup).1)
      (l₂.map fun x => (x.setup).1) e 0
      (by
        intro cb hcb
        obtain ⟨cb0, h0, rfl⟩ := List.mem_map.mp hcb
        exact h1 cb0 h0)
      hc]
  dsimp only
  simp [hb, List.length_append, List.length_map, List.range_eq_range']

/-- C7 witness: the amended behaviour at a concrete one-connection run —
all setup and measurement succeed, teardown fails with "boom", and `Run`
returns the error with a trace showing setup, the full measurement, and the
failing teardown. -/
theorem claim7_witness :
    Bench.Benchmark.Run (Bench.NewBenchmark teardownFailFactory 0 0 10) =
      (.error "boom",
       [Bench.Action.setup 0, Bench.Action.runConn 0, Bench.Action.teardown 0]) := by
  have := claim7_corrected (Bench.NewBenchmark teardownFailFactory 0 0 10)
    [] (Bench.newConnectionBenchmark (teardownFailFactory 0) 0 10) [] "boom"
    rfl (by decide) (by decide) rfl
  simpa using this

/-- C8: with a per-connection rate of 0, `run` executes the full-throttle
loop; on an all-successful scripted requester that loop records exactly the
raw latency of each executed request into the main histogram (no corrected
recording, the uncorrected histogram and the pacing-free clock untouched by
any interval), counts them, and returns as elapsed time the sum of the
executed latencies, the executed requests being the prefix the
boundary-only deadline check admits. -/
theorem claim8_fullThrottle (c : Bench.ConnectionBenchmark) :
    (c.requestRate = 0 →
      Bench.ConnectionBenchmark.run c =
        (match c.runFullThrottle with
         | (c', .ok e) => { err := none, summary := ({ c' with elapsed := e }).summarize }
         | (c', .error msg) =>
            { err := some msg, summary := ({ c' with elapsed := 0 }).summarize })) ∧
    ((∀ p ∈ c.requester.requests, p.2 = none ∧ 1 ≤ p.1 ∧ p.1 ≤ Hdr.maxRecordableLatencyNS) →
      c.runFullThrottle =
        ({ c with
            histogram := ⟨(Bench.fullThrottleExecuted c.duration 0 c.requester.requests).reverse
              ++ c.histogram.samples⟩
            totalRequests := c.totalRequests +
              (Bench.fullThrottleExecuted c.duration 0 c.requester.requests).length },
         .ok ((Bench.fullThrottleExecuted c.duration 0 c.requester.requests).sum))) := by
  constructor
  · exact Bench.run_dispatch_zero c
  · intro hreq
    have h := Bench.runFullThrottleLoop_ok c.duration c.requester.requests 0 c hreq
    rw [show Bench.ConnectionBenchmark.runFullThrottle c =
        Bench.runFullThrottleLoop c.duration 0 c.requester.requests c from rfl, h]
    simp

/-- C8 witness: an unthrottled connection with a single scripted 5ns
request — the full-throttle loop records the one raw sample and reports
5ns elapsed. -/
theorem claim8_witness :
    Bench.ConnectionBenchmark.run (Bench.newConnectionBenchmark ⟨none, [(5, none)], none⟩ 0 10) =
      (match (Bench.newConnectionBenchmark ⟨none, [(5, none)], none⟩ 0 10).runFullThrottle with
       | (c', .ok e) => { err := none, summary := ({ c' with elapsed := e }).summarize }
       | (c', .error msg) =>
          { err := some msg, summary := ({ c' with elapsed := 0 }).summarize }) ∧
    (Bench.newConnectionBenchmark ⟨none, [(5, none)], none⟩ 0 10).runFullThrottle =
      ({ Bench.newConnectionBenchmark ⟨none, [(5, none)], none⟩ 0 10 with
          histogram := ⟨(Bench.fullThrottleExecuted 10 0 [(5, none)]).reverse ++ []⟩
          totalRequests := 0 + (Bench.fullThrottleExecuted 10 0 [(5, none)]).length },
       .ok ((Bench.fullThrottleExecuted 10 0 [(5, none)]).sum)) :=
  ⟨(claim8_fullThrottle _).1 rfl,
   (claim8_fullThrottle _).2 (by decide)⟩

/-- C10: with `0 < targetRate < connections` the integer division zeroes
every per-connection rate, so every connection benchmark is built with rate
limiting disabled (`requestRate = 0`, `expectedInterval = 0`) and its `run`
dispatches to the full-throttle loop; any Summary a `Run` of this benchmark
returns has `RequestRate = 0`, and its latency-distribution export emits
only the corrected file — no `uncorrected_` twin. -/
theorem claim10_rate_underflow (factory : Nat → Requester) (r c : Nat) (d : Int)
    (ps : Option (List ℚ)) (file : String) (hr : 0 < r) (hrc : r < c) :
    (∀ cb ∈ (Bench.NewBenchmark factory r c d).benchmarks,
       cb.requestRate = 0 ∧ cb.expectedInterval = 0 ∧
       Bench.ConnectionBenchmark.run cb =
        (match cb.runFullThrottle with
         | (c', .ok e) => { err := none, summary := ({ c' with elapsed := e }).summarize }
         | (c', .error msg) =>
            { err := some msg, summary := ({ c' with elapsed := 0 }).summarize })) ∧
    (∀ s, (Bench.Benchmark.Run (Bench.NewBenchmark factory r c d)).1 = .ok s →
       s.RequestRate = 0 ∧
       Bench.Summary.GenerateLatencyDistribution s ps file =
         [(file, Bench.distRows s.Histogram (ps.getD Bench.Logarithmic))]) := by
  have hcne : ¬(c = 0) := by omega
  have hdiv : r / c = 0 := Nat.div_eq_of_lt hrc
  have hrate : ∀ cb ∈ (Bench.NewBenchmark factory r c d).benchmarks, cb.requestRate = 0 := by
    intro cb hcb
    simp only [Bench.NewBenchmark, hcne, if_false, List.mem_map] at hcb
    obtain ⟨i, _, rfl⟩ := hcb
    simp [Bench.newConnectionBenchmark, hdiv]
  constructor
  · intro cb hcb
    have h0 := hrate cb hcb
    refine ⟨h0, ?_, Bench.run_dispatch_zero cb h0⟩
    simp only [Bench.NewBenchmark, hcne, if_false, List.mem_map] at hcb
    obtain ⟨i, _, rfl⟩ := hcb
    simp [Bench.newConnectionBenchmark, hdiv]
  · intro s hs
    have hrate0 : s.RequestRate = 0 := by
      unfold Bench.Benchmark.Run at hs
      rcases hsa : Bench.setupAll (Bench.NewBenchmark factory r c d).benchmarks 0
        with ⟨bs, acts, serr⟩
      rw [hsa] at hs
      cases serr with
      | some e => simp at hs
      | none =>
        dsimp only at hs
        rcases htd : Bench.teardownAll bs 0 with ⟨tacts, terr⟩
        rw [htd] at hs
        cases terr with
        | some e => simp at hs
        | none =>
          dsimp only at hs
          cases hm : Bench.mergeResults (bs.map Bench.ConnectionBenchmark.run) with
          | error e => rw [hm] at hs; simp at hs
          | ok s0 =>
            rw [hm] at hs
            simp only [Except.ok.injEq] at hs
            have hs0 : s0.RequestRate = 0 := by
              refine Bench.mergeResults_rate0 (bs.map Bench.ConnectionBenchmark.run) ?_ s0 hm
              intro res hres
              obtain ⟨cb', hcb', rfl⟩ := List.mem_map.mp hres
              rw [Bench.run_summary_requestRate cb']
              have hmem : cb' ∈ (Bench.setupAll
                  (Bench.NewBenchmark factory r c d).benchmarks 0).1 := by
                rw [hsa]
                exact hcb'
              obtain ⟨cb0, hcb0, rfl⟩ :=
                Bench.setupAll_mem (Bench.NewBenchmark factory r c d).benchmarks 0 cb' hmem
              exact hrate cb0 hcb0
            rw [← hs]
            exact hs0
    refine ⟨hrate0, ?_⟩
    simp [Bench.Summary.GenerateLatencyDistribution, hrate0]

/-- C10 witness: aggregate rate 1 split over 2 connections — the first
connection benchmark is unthrottled and dispatches to the full-throttle
loop, and the merged Summary of the concrete run has rate 0 and exports
only the one corrected file. -/
theorem claim10_witness :
    ((Bench.newConnectionBenchmark (quickFactory 0) 0 10).requestRate = 0 ∧
     (Bench.newConnectionBenchmark (quickFactory 0) 0 10).expectedInterval = 0 ∧
     Bench.ConnectionBenchmark.run (Bench.newConnectionBenchmark (quickFactory 0) 0 10) =
       (match (Bench.newConnectionBenchmark (quickFactory 0) 0 10).runFullThrottle with
        | (c', .ok e) => { err := none, summary := ({ c' with elapsed := e }).summarize }
        | (c', .error msg) =>
           { err := some msg, summary := ({ c' with elapsed := 0 }).summarize })) ∧
    (({ Connections := 2, RequestRate := 0, TotalRequests := 2, TimeElapsed := 5,
        Histogram := ⟨[5, 5]⟩, UncorrectedHistogram := ⟨[]⟩,
        Throughput := 400000000 } : Bench.Summary).RequestRate = 0 ∧
     Bench.Summary.GenerateLatencyDistribution
        { Connections := 2, RequestRate := 0, TotalRequests := 2, TimeElapsed := 5,
          Histogram := ⟨[5, 5]⟩, UncorrectedHistogram := ⟨[]⟩,
          Throughput := 400000000 } (some []) "lat.txt" =
       [("lat.txt", Bench.distRows ⟨[5, 5]⟩ ((some ([] : List ℚ)).getD Bench.Logarithmic))]) := by
  constructor
  · exact (claim10_rate_underflow quickFactory 1 2 10 (some []) "lat.txt"
      (by norm_num) (by norm_num)).1 _ (by decide)
  · exact (claim10_rate_underflow quickFactory 1 2 10 (some []) "lat.txt"
      (by norm_num) (by norm_num)).2 _
      (by norm_num [Bench.Benchmark.Run, Bench.NewBenchmark, Bench.setupAll,
        Bench.teardownAll, Bench.mergeResults, Bench.mergeRest,
        Bench.ConnectionBenchmark.run, Bench.ConnectionBenchmark.runFullThrottle,
        Bench.runFullThrottleLoop, Bench.ConnectionBenchmark.setup,
        Bench.ConnectionBenchmark.teardown, Bench.newConnectionBenchmark,
        Hdr.Histogram.RecordValue, Hdr.Histogram.New, Bench.ConnectionBenchmark.summarize,
        Bench.Summary.merge, Hdr.Histogram.Merge, quickFactory, List.range_succ,
        Hdr.maxRecordableLatencyNS])
